import Mathlib

/-!
Verification development for the control-channel module (`ctl.c`) of the
xcm messaging library: a shallow embedding of its data model and
operations, and theorems settling the specified properties.

Conventions of the embedding:
* machine integers are modelled as `Nat`; errno values are `Nat`
  constants with their Linux values;
* the fixed-size C byte buffers are modelled as `List Nat` of bytes;
  `memcpy(dst, src, len)` with `len = src.length` becomes
  `src ++ dst.drop src.length` (prefix overwrite, tail left stale);
* the `ctl_proto_msg` union is flattened into one record whose fields
  coexist (claims here never depend on the union's byte overlay);
* `ut_assert` failures (process abort) are modelled as `Option`-valued
  functions returning `none`;
* external collaborators (the attribute table, `recv`/`send`/`accept`)
  are oracles supplied as function-valued parameters.
-/

namespace Xcm

/-- Capacity of the client pool (`MAX_CLIENTS` in ctl.c). -/
def MAX_CLIENTS : Nat := 2

/-- Modelled from the spec: the maximum value size per attribute
(`CTL_ATTR_VALUE_MAX` from the missing header ctl_proto.h); the spec fixes
no numeric value, only that it is a positive compile-time constant. -/
def CTL_ATTR_VALUE_MAX : Nat := 256

/-- Modelled from the spec: the maximum entry count per enumeration
response (`CTL_PROTO_MAX_ATTRS` from the missing header ctl_proto.h); the
spec fixes no numeric value, only that it is a positive compile-time
constant. -/
def CTL_PROTO_MAX_ATTRS : Nat := 64

/-- Modelled from the spec: the fixed wire-message size
(`sizeof(struct ctl_proto_msg)` from the missing header ctl_proto.h);
only equality/inequality with the received byte count matters. -/
def CTL_PROTO_MSG_SIZE : Nat := 1024

/-- Modelled from the spec: the name of the well-known sensitive
attribute (`XCM_ATTR_TLS_KEY` from the missing header xcm_attr_names.h);
the spec's example names it "tls.key". -/
def XCM_ATTR_TLS_KEY : String := "tls.key"

/-- Linux errno EAGAIN. -/
def EAGAIN : Nat := 11

/-- Linux errno EACCES. -/
def EACCES : Nat := 13

/-- Linux errno ENOENT. -/
def ENOENT : Nat := 2

/-- epoll event mask EPOLLIN. -/
def EPOLLIN : Nat := 1

/-- epoll event mask EPOLLOUT. -/
def EPOLLOUT : Nat := 4

/-- One attribute record on the wire (`struct ctl_proto_attr`):
name, value type tag, value length and the fixed-size value buffer. -/
structure CtlProtoAttr where
  name : String
  value_type : Nat
  value_len : Nat
  any_value : List Nat
  deriving Repr, DecidableEq

/-- The all-zero attribute record: state of a freshly `calloc`ed buffer. -/
def freshAttr : CtlProtoAttr :=
  { name := "", value_type := 0, value_len := 0,
    any_value := List.replicate CTL_ATTR_VALUE_MAX 0 }

/-- Payload of a `GetAllAttrCfm` (`struct ctl_proto_get_all_attr_cfm`):
the used-entry count and the fixed-capacity entry array (stale entries
beyond `attrs_len` are retained, as in the C buffer reuse). -/
structure GetAllAttrCfm where
  attrs_len : Nat
  attrs : List CtlProtoAttr
  deriving Repr, DecidableEq

/-- Response-message type tags (`enum ctl_proto_type`, response side). -/
inductive RespType where
  | get_attr_cfm
  | get_attr_rej
  | get_all_attr_cfm
  | stale (tag : Nat)
  deriving Repr, DecidableEq

/-- A response `ctl_proto_msg`, with the C union flattened: `attr` is the
`get_attr_cfm` payload, `rej_errno` the `get_attr_rej` payload, `all` the
`get_all_attr_cfm` payload. -/
structure RespMsg where
  type : RespType
  attr : CtlProtoAttr
  rej_errno : Nat
  all : GetAllAttrCfm
  deriving Repr, DecidableEq

/-- The all-zero response message (state of a freshly `calloc`ed client slot). -/
def freshResp : RespMsg :=
  { type := .stale 0, attr := freshAttr, rej_errno := 0,
    all := { attrs_len := 0, attrs := List.replicate CTL_PROTO_MAX_ATTRS freshAttr } }

/-- A request `ctl_proto_msg` as interpreted by `process_client`'s
`switch` on `req.type`: the two known request variants plus any
unrecognized tag. -/
inductive ReqMsg where
  | get_attr_req (attr_name : String)
  | get_all_attr_req
  | unknown (tag : Nat)
  deriving Repr, DecidableEq

/-- Result of the attribute table's `xcm_attr_get`: on success the value
type tag and the value bytes (the C call writes the bytes into the
caller's buffer and returns their count); on failure the errno. -/
inductive AttrGetResult where
  | ok (value_type : Nat) (bytes : List Nat)
  | err (e : Nat)
  deriving Repr, DecidableEq

/-- `memcpy(dst, src, src.length)` on byte buffers: overwrite the prefix,
keep the stale tail. -/
def writeBytes (dst src : List Nat) : List Nat :=
  src ++ dst.drop src.length

/-- `is_sensitive` from ctl.c: exactly the TLS private-key attribute. -/
def is_sensitive (attr_name : String) : Bool :=
  attr_name = XCM_ATTR_TLS_KEY

/-- `clear_attr` from ctl.c: `memset(attr->any_value, 0, CTL_ATTR_VALUE_MAX)`. -/
def clear_attr (attr : CtlProtoAttr) : CtlProtoAttr :=
  { attr with any_value := List.replicate CTL_ATTR_VALUE_MAX 0 }

/-- `process_get_attr` from ctl.c. `get` is the owning socket's
`xcm_attr_get` oracle; `response` is the (possibly stale) response buffer
being overwritten in place. Mirrors the source's order: attempt the
lookup (writing value type and bytes into the cfm payload on success),
then force a zeroed EACCES rejection for the sensitive name, then pick
cfm or rej from the final `rc`. -/
def process_get_attr (get : String → AttrGetResult) (attr_name : String)
    (response : RespMsg) : RespMsg :=
  let attr0 := response.attr
  let lookup := get attr_name
  let attr1 := match lookup with
    | .ok t bytes =>
        { attr0 with value_type := t, any_value := writeBytes attr0.any_value bytes }
    | .err _ => attr0
  let rc : Option Nat := match lookup with
    | .ok _ bytes => some bytes.length
    | .err _ => none
  let attr_errno : Nat := match lookup with
    | .ok _ _ => 0
    | .err e => e
  let sensitive := is_sensitive attr_name
  let attr2 := if sensitive then clear_attr attr1 else attr1
  let rc := if sensitive then none else rc
  let attr_errno := if sensitive then EACCES else attr_errno
  match rc with
  | some len =>
      { response with type := .get_attr_cfm, attr := { attr2 with value_len := len } }
  | none =>
      { response with type := .get_attr_rej, attr := attr2, rej_errno := attr_errno }

/-- One visit of the attribute table's `xcm_attr_get_all` iteration
contract: the callback's `(attr_name, type, value, len)` arguments, with
`len = value.length` (the C caller passes the buffer and its length
together). -/
structure Visit where
  attr_name : String
  value_type : Nat
  value : List Nat
  deriving Repr, DecidableEq

/-- `add_attr` from ctl.c, the `xcm_attr_get_all` visitor callback.
`none` models a `ut_assert` failure (process abort). Mirrors the
source's order exactly: skip sensitive names; take the entry slot at
index `attrs_len`; increment `attrs_len`; assert the incremented count
is below `CTL_PROTO_MAX_ATTRS`; write name and type; assert the slot's
(still stale) `value_len` is below the buffer size; `memcpy` the value
bytes; finally store `value_len`. -/
def add_attr (v : Visit) (cfm : GetAllAttrCfm) : Option GetAllAttrCfm :=
  if is_sensitive v.attr_name then some cfm
  else
    let idx := cfm.attrs_len
    let attr := cfm.attrs.getD idx freshAttr
    let cfm := { cfm with attrs_len := cfm.attrs_len + 1 }
    if cfm.attrs_len < CTL_PROTO_MAX_ATTRS then
      let attr := { attr with name := v.attr_name, value_type := v.value_type }
      if attr.value_len < CTL_ATTR_VALUE_MAX then
        let attr := { attr with any_value := writeBytes attr.any_value v.value,
                                value_len := v.value.length }
        some { cfm with attrs := cfm.attrs.set idx attr }
      else none
    else none

/-- Fold of `add_attr` over the attribute table's visit sequence
(`xcm_attr_get_all(socket, add_attr, cfm)`), aborting if any step does. -/
def visitAll (visits : List Visit) (cfm : GetAllAttrCfm) : Option GetAllAttrCfm :=
  match visits with
  | [] => some cfm
  | v :: rest =>
      match add_attr v cfm with
      | some cfm => visitAll rest cfm
      | none => none

/-- `process_get_all_attr` from ctl.c: reset `attrs_len` to zero in the
(possibly stale) response buffer and run the enumeration. Note the
source never assigns `response->type` here; the stale tag is kept. -/
def process_get_all_attr (visits : List Visit) (response : RespMsg) :
    Option RespMsg :=
  let cfm := { response.all with attrs_len := 0 }
  match visitAll visits cfm with
  | some cfm => some { response with all := cfm }
  | none => none

/-- One connected control client (`struct client`): descriptor,
response-pending flag, and the in-flight response buffer. -/
structure Client where
  fd : Nat
  is_response_pending : Bool
  pending_response : RespMsg
  deriving Repr, DecidableEq

/-- Client state as installed by `accept_client` (`fd` and the flag are
set; the response buffer of the reused slot is modelled as fresh). -/
def freshClient (fd : Nat) : Client :=
  { fd := fd, is_response_pending := false, pending_response := freshResp }

/-- Result of a non-blocking `recv` of one fixed-size message:
`fail e` is `rc < 0` with errno `e`; `data n m` is `rc = n ≥ 0`, with `m`
the message in the buffer (meaningful when `n = CTL_PROTO_MSG_SIZE`). -/
inductive RecvResult where
  | fail (e : Nat)
  | data (n : Nat) (m : ReqMsg)
  deriving Repr, DecidableEq

/-- Result of a non-blocking `send` of the pending response:
`fail e` is `rc < 0` with errno `e`; `ok` is `rc ≥ 0`. -/
inductive SendResult where
  | fail (e : Nat)
  | ok
  deriving Repr, DecidableEq

/-- The environment of oracles around one endpoint: per-descriptor
`recv` and `send` outcomes, the attribute table (`xcm_attr_get` and the
`xcm_attr_get_all` visit sequence), the listening descriptor's
readability, and the queue of connections `accept` would yield. -/
structure Env where
  recv : Nat → RecvResult
  send : Nat → SendResult
  attrGet : String → AttrGetResult
  visits : List Visit
  readable : Bool

/-- Outcome of one `process_client` call from ctl.c: the updated client,
whether the return was negative (caller removes the client), whether a
`recv` was attempted, whether a whole response was sent this step, and
the epoll re-registration requested for the client's descriptor
(`epoll_reg_set_mod`), which the caller's registration set absorbs.
`none` models a `ut_assert` abort inside a handler. -/
structure StepRes where
  client : Client
  removed : Bool
  recvAttempted : Bool
  sent : Bool
  regMod : Option Nat
  deriving Repr, DecidableEq

/-- `process_client` from ctl.c. With a response pending, try to send
it: `EAGAIN` leaves everything unchanged, another error removes the
client, success clears the flag and re-arms read interest. Otherwise
try to receive one request: `EAGAIN` leaves everything unchanged; other
errors, peer close, and a byte count different from the fixed message
size remove the client; a full-size message arms write interest, marks a
response pending and dispatches on the tag, an unrecognized tag clearing
the flag again and removing the client with nothing sent. -/
def process_client (env : Env) (client : Client) : Option StepRes :=
  if client.is_response_pending then
    match env.send client.fd with
    | .fail e =>
        if e = EAGAIN then
          some { client := client, removed := false, recvAttempted := false,
                 sent := false, regMod := none }
        else
          some { client := client, removed := true, recvAttempted := false,
                 sent := false, regMod := none }
    | .ok =>
        some { client := { client with is_response_pending := false },
               removed := false, recvAttempted := false, sent := true,
               regMod := some EPOLLIN }
  else
    match env.recv client.fd with
    | .fail e =>
        if e = EAGAIN then
          some { client := client, removed := false, recvAttempted := true,
                 sent := false, regMod := none }
        else
          some { client := client, removed := true, recvAttempted := true,
                 sent := false, regMod := none }
    | .data n m =>
        if n = 0 then
          some { client := client, removed := true, recvAttempted := true,
                 sent := false, regMod := none }
        else if n ≠ CTL_PROTO_MSG_SIZE then
          some { client := client, removed := true, recvAttempted := true,
                 sent := false, regMod := none }
        else
          let client := { client with is_response_pending := true }
          match m with
          | .get_attr_req attr_name =>
              let res := process_get_attr env.attrGet attr_name client.pending_response
              some { client := { client with pending_response := res },
                     removed := false, recvAttempted := true, sent := false,
                     regMod := some EPOLLOUT }
          | .get_all_attr_req =>
              match process_get_all_attr env.visits client.pending_response with
              | some res =>
                  some { client := { client with pending_response := res },
                         removed := false, recvAttempted := true, sent := false,
                         regMod := some EPOLLOUT }
              | none => none
          | .unknown _ =>
              some { client := { client with is_response_pending := false },
                     removed := true, recvAttempted := true, sent := false,
                     regMod := some EPOLLOUT }

/-- The owned registration table (`struct epoll_reg_set`): an association
list from descriptor to armed interest mask. -/
abbrev RegSet := List (Nat × Nat)

/-- `epoll_reg_set_add`: register a descriptor with an interest mask. -/
def epoll_reg_set_add (rs : RegSet) (fd ev : Nat) : RegSet :=
  (fd, ev) :: rs

/-- `epoll_reg_set_del`: drop every registration of a descriptor. -/
def epoll_reg_set_del (rs : RegSet) (fd : Nat) : RegSet :=
  rs.filter (fun p => p.1 != fd)

/-- `epoll_reg_set_mod`: change a registered descriptor's interest mask. -/
def epoll_reg_set_mod (rs : RegSet) (fd ev : Nat) : RegSet :=
  rs.map (fun p => if p.1 = fd then (fd, ev) else p)

/-- The control endpoint (`struct ctl`): listening descriptor, client
pool (a list of length `num_clients`, capacity `MAX_CLIENTS`), its
registration set, and the bound filesystem path (what `getsockname` on
the listening descriptor reports). -/
structure Ctl where
  server_fd : Nat
  path : String
  clients : List Client
  reg_set : RegSet
  deriving Repr

/-- The endpoint state `ctl_create` leaves behind on success: no
clients, and the listening descriptor registered for read interest in
the freshly initialized registration set. -/
def ctl_create_state (server_fd : Nat) (path : String) : Ctl :=
  { server_fd := server_fd, path := path, clients := [],
    reg_set := epoll_reg_set_add [] server_fd EPOLLIN }

/-- `remove_client` from ctl.c: deregister and close the client's
descriptor, compact the pool by moving the last occupied slot into the
freed one, re-arm the listener's read interest if the pool had been
full, and decrement the count. Returns the updated endpoint and the
closed descriptor. -/
def remove_client (ctl : Ctl) (client_idx : Nat) : Ctl × Nat :=
  let rclient := ctl.clients.getD client_idx (freshClient 0)
  let reg := epoll_reg_set_del ctl.reg_set rclient.fd
  let last_idx := ctl.clients.length - 1
  let clients :=
    (ctl.clients.set client_idx (ctl.clients.getD last_idx (freshClient 0))).dropLast
  let reg :=
    if ctl.clients.length = MAX_CLIENTS then
      epoll_reg_set_add reg ctl.server_fd EPOLLIN
    else reg
  ({ ctl with clients := clients, reg_set := reg }, rclient.fd)

/-- Instrumented processing state threaded through `ctl_process`: the
endpoint, the queue of connections a successful `accept` would yield,
and ghost logs — the pool size observed at each `accept_client`
invocation, the accepted descriptors, and the descriptors handed to
`process_client`, all in order. -/
structure PState where
  ctl : Ctl
  pending : List Nat
  attempts : List Nat
  accepted : List Nat
  stepped : List Nat

/-- `accept_client` from ctl.c: nothing to do if the listening
descriptor is not readable or `accept` reports `EAGAIN` (empty pending
queue); otherwise register the new descriptor for read interest, insert
the client with no response pending, and deregister the listener once
the pool reaches capacity. -/
def accept_client (env : Env) (st : PState) : PState :=
  let st := { st with attempts := st.attempts ++ [st.ctl.clients.length] }
  if env.readable then
    match st.pending with
    | [] => st
    | client_fd :: rest =>
        let reg := epoll_reg_set_add st.ctl.reg_set client_fd EPOLLIN
        let clients := st.ctl.clients ++ [freshClient client_fd]
        let reg :=
          if clients.length = MAX_CLIENTS then
            epoll_reg_set_del reg st.ctl.server_fd
          else reg
        { st with
          ctl := { st.ctl with clients := clients, reg_set := reg },
          pending := rest,
          accepted := st.accepted ++ [client_fd] }
  else st

/-- The body of `ctl_process` from ctl.c, fueled for termination.
`ctl_process_go env fuel st i` is the `for` loop resumed at index `i`:
step the client at `i`; on a negative return, `remove_client` and rerun
the whole of `ctl_process` (the source's restart-by-recursion), then
continue the loop at `i+1`; once the loop is done, attempt one accept if
the pool has spare capacity. `none` is fuel exhaustion or a `ut_assert`
abort inside a handler. -/
def ctl_process_go (env : Env) : Nat → PState → Nat → Option PState
  | 0, _, _ => none
  | fuel + 1, st, i =>
      if h : i < st.ctl.clients.length then
        let c := st.ctl.clients.get ⟨i, h⟩
        match process_client env c with
        | none => none
        | some r =>
            let reg := match r.regMod with
              | some ev => epoll_reg_set_mod st.ctl.reg_set c.fd ev
              | none => st.ctl.reg_set
            let ctl' := { st.ctl with
              clients := st.ctl.clients.set i r.client
              reg_set := reg }
            let st := { st with ctl := ctl', stepped := st.stepped ++ [c.fd] }
            if r.removed then
              let st := { st with ctl := (remove_client st.ctl i).1 }
              match ctl_process_go env fuel st 0 with
              | none => none
              | some st => ctl_process_go env fuel st (i + 1)
            else
              ctl_process_go env fuel st (i + 1)
      else
        if st.ctl.clients.length < MAX_CLIENTS then some (accept_client env st)
        else some st

/-- `ctl_process` from ctl.c: run the client scan from the beginning,
then the guarded accept. -/
def ctl_process (env : Env) (fuel : Nat) (st : PState) : Option PState :=
  ctl_process_go env fuel st 0

/-- Oracle for the error-state churn of best-effort teardown: the
ambient errno value left behind by the cleanup syscalls (`close`,
`unlink`, `getsockname`), which `ctl_destroy` must hide from its
caller. -/
structure DEnv where
  cleanupErrno : Nat

/-- Observable effects of `ctl_destroy`: descriptors closed in order,
whether the filesystem path was unlinked, whether the endpoint memory
was released, the caller-visible errno after return, and (as a ghost
observation) the ambient errno just before `UT_RESTORE_ERRNO_DC`. -/
structure DestroyEffects where
  closed : List Nat
  unlinked : Bool
  freed : Bool
  errno : Nat
  preRestoreErrno : Nat
  deriving Repr, DecidableEq

/-- The `while (ctl->num_clients > 0) remove_client(ctl, 0)` loop of
`ctl_destroy`, fueled by the initial pool size; returns the drained
endpoint and the closed descriptors in order. -/
def destroyRemoveLoop : Nat → Ctl → Ctl × List Nat
  | 0, ctl => (ctl, [])
  | n + 1, ctl =>
      if ctl.clients.length > 0 then
        let r := remove_client ctl 0
        let rest := destroyRemoveLoop n r.1
        (rest.1, r.2 :: rest.2)
      else (ctl, [])

/-- `ctl_destroy` from ctl.c. A null handle is a no-op. Otherwise:
save the ambient errno; remove every client from slot 0 until the pool
is empty; fetch the bound path via `getsockname` (which succeeds on the
endpoint's valid bound listening descriptor, yielding `ctl.path`);
close the listening descriptor; unlink the path exactly when this
instance owns it; free the endpoint; restore the saved errno. -/
def ctl_destroy (denv : DEnv) (ctl? : Option Ctl) (owner : Bool)
    (errno : Nat) : DestroyEffects :=
  match ctl? with
  | none =>
      { closed := [], unlinked := false, freed := false, errno := errno,
        preRestoreErrno := errno }
  | some ctl =>
      let saved := errno
      let r := destroyRemoveLoop ctl.clients.length ctl
      let closed := r.2 ++ [ctl.server_fd]
      let unlinked := owner
      let churn := denv.cleanupErrno
      { closed := closed, unlinked := unlinked, freed := true,
        errno := saved, preRestoreErrno := churn }

/-! ## Theorems -/

/-- C1: for every GetAttr request naming the sensitive TLS private-key
attribute, `process_get_attr` produces a GetAttrReject with errno
EACCES regardless of the underlying lookup's outcome, and every byte of
the response's value buffer is zero at the moment the response is
queued for send. -/
theorem get_attr_sensitive_rejected_zeroed
    (get : String → AttrGetResult) (response : RespMsg) (attr_name : String)
    (h : is_sensitive attr_name = true) :
    (process_get_attr get attr_name response).type = RespType.get_attr_rej ∧
    (process_get_attr get attr_name response).rej_errno = EACCES ∧
    (process_get_attr get attr_name response).attr.any_value =
      List.replicate CTL_ATTR_VALUE_MAX 0 := by
  unfold process_get_attr
  cases hg : get attr_name <;> simp [h, clear_attr]

/-- Witness for `get_attr_sensitive_rejected_zeroed`: the attribute
"tls.key" is sensitive, and even with a lookup that would succeed with
value bytes 9, 9, 9 the handler rejects with EACCES over a zeroed
buffer. -/
theorem get_attr_sensitive_rejected_zeroed_witness :
    is_sensitive "tls.key" = true ∧
    ((process_get_attr (fun _ => AttrGetResult.ok 3 [9, 9, 9]) "tls.key"
        freshResp).type = RespType.get_attr_rej ∧
     (process_get_attr (fun _ => AttrGetResult.ok 3 [9, 9, 9]) "tls.key"
        freshResp).rej_errno = EACCES ∧
     (process_get_attr (fun _ => AttrGetResult.ok 3 [9, 9, 9]) "tls.key"
        freshResp).attr.any_value = List.replicate CTL_ATTR_VALUE_MAX 0) :=
  ⟨by decide,
   get_attr_sensitive_rejected_zeroed (fun _ => AttrGetResult.ok 3 [9, 9, 9])
     freshResp "tls.key" (by decide)⟩

/-- A visitor argument whose value length exceeds the per-attribute
bound by one. -/
def oversizedVisit : Visit :=
  { attr_name := "foo", value_type := 1,
    value := List.replicate (CTL_ATTR_VALUE_MAX + 1) 7 }

/-- A minimal non-sensitive visitor argument. -/
def plainVisit : Visit :=
  { attr_name := "a", value_type := 0, value := [] }

set_option maxRecDepth 8192 in
/-- C2 (code bug): the enumeration bounds are not enforced as the spec
requires. An attribute whose value length exceeds `CTL_ATTR_VALUE_MAX`
does not abort — `add_attr` asserts on the slot's stale `value_len`
field one line before assigning it, so the oversized `memcpy` proceeds
and the resulting entry's buffer has grown past the bound; while a
table with exactly `CTL_PROTO_MAX_ATTRS` in-bound attributes, which
honors the bounds, does abort, because the count assert runs after the
increment and fires at equality. -/
theorem get_all_attr_bounds_divergence :
    (CTL_ATTR_VALUE_MAX < oversizedVisit.value.length ∧
     (process_get_all_attr [oversizedVisit] freshResp).isSome = true ∧
     ((((process_get_all_attr [oversizedVisit] freshResp).getD
          freshResp).all.attrs.getD 0 freshAttr).any_value.length >
        CTL_ATTR_VALUE_MAX)) ∧
    process_get_all_attr (List.replicate CTL_PROTO_MAX_ATTRS plainVisit)
      freshResp = none := by
  constructor
  · refine ⟨by decide, by decide, by decide⟩
  · decide

/-- The observable content of a wire attribute entry: name, type,
length, and the `value_len` value bytes actually carried. -/
def attrEntry (a : CtlProtoAttr) : String × Nat × Nat × List Nat :=
  (a.name, a.value_type, a.value_len, a.any_value.take a.value_len)

/-- The entry a visitor invocation is meant to produce. -/
def visitEntry (v : Visit) : String × Nat × Nat × List Nat :=
  (v.attr_name, v.value_type, v.value.length, v.value)

/-- The non-sensitive part of a visit sequence. -/
def nonsensitiveVisits (visits : List Visit) : List Visit :=
  visits.filter (fun v => ! is_sensitive v.attr_name)

/-- Helper: `add_attr` ignores a sensitive attribute entirely. -/
theorem add_attr_sensitive (v : Visit) (cfm : GetAllAttrCfm)
    (hname : is_sensitive v.attr_name = true) :
    add_attr v cfm = some cfm := by
  unfold add_attr
  rw [hname]
  simp

/-- Helper: what a successful non-sensitive `add_attr` step did: it
bumped the count (staying under the bound) and wrote the visited
name, type, bytes and length into the slot at the old count. -/
theorem add_attr_nonsensitive_some
    (v : Visit) (cfm cfm' : GetAllAttrCfm)
    (hname : is_sensitive v.attr_name = false)
    (h : add_attr v cfm = some cfm') :
    cfm'.attrs_len = cfm.attrs_len + 1 ∧
    cfm.attrs_len + 1 < CTL_PROTO_MAX_ATTRS ∧
    cfm'.attrs = cfm.attrs.set cfm.attrs_len
      { name := v.attr_name, value_type := v.value_type,
        value_len := v.value.length,
        any_value :=
          writeBytes (cfm.attrs.getD cfm.attrs_len freshAttr).any_value
            v.value } := by
  unfold add_attr at h
  rw [hname] at h
  simp only [Bool.false_eq_true, if_false] at h
  split at h
  · split at h
    · cases h
      refine ⟨rfl, by assumption, rfl⟩
    · cases h
  · cases h

/-- Helper: setting a slot does not change the part of the array before
it. -/
theorem take_set_self {α : Type} (l : List α) (n : Nat) (x : α) :
    (l.set n x).take n = l.take n := by
  induction l generalizing n with
  | nil => simp
  | cons a t ih =>
      cases n with
      | zero => simp
      | succ k => simp [ih]

/-- Helper: taking one past a just-set slot appends the new element to
the unchanged prefix. -/
theorem take_succ_set {α : Type} (l : List α) (n : Nat) (x : α)
    (hn : n < l.length) :
    (l.set n x).take (n + 1) = l.take n ++ [x] := by
  induction l generalizing n with
  | nil => simp at hn
  | cons a t ih =>
      cases n with
      | zero => simp
      | succ k =>
          have hk : k < t.length := by simpa using hn
          simp [ih k hk]

/-- Helper: running the whole visit sequence appends exactly the
non-sensitive visits' entries after the pre-existing prefix, keeping
the array capacity. -/
theorem visitAll_spec (visits : List Visit) (cfm cfm' : GetAllAttrCfm)
    (hw : cfm.attrs.length = CTL_PROTO_MAX_ATTRS)
    (h : visitAll visits cfm = some cfm') :
    cfm'.attrs_len = cfm.attrs_len + (nonsensitiveVisits visits).length ∧
    cfm'.attrs.length = CTL_PROTO_MAX_ATTRS ∧
    (cfm'.attrs.take cfm'.attrs_len).map attrEntry =
      (cfm.attrs.take cfm.attrs_len).map attrEntry ++
        (nonsensitiveVisits visits).map visitEntry := by
  induction visits generalizing cfm with
  | nil =>
      unfold visitAll at h
      cases h
      simp [nonsensitiveVisits, hw]
  | cons v rest ih =>
      unfold visitAll at h
      rcases ha : add_attr v cfm with _ | cfm1 <;> rw [ha] at h
      · cases h
      · by_cases hs : is_sensitive v.attr_name = true
        · rw [add_attr_sensitive v cfm hs] at ha
          cases ha
          obtain ⟨h1, h2, h3⟩ := ih cfm hw h
          refine ⟨?_, h2, ?_⟩
          · rw [h1]
            simp [nonsensitiveVisits, hs]
          · rw [h3]
            simp [nonsensitiveVisits, hs]
        · have hs' : is_sensitive v.attr_name = false := by
            simpa using hs
          obtain ⟨hlen1, hbound, hattrs⟩ :=
            add_attr_nonsensitive_some v cfm cfm1 hs' ha
          have hw1 : cfm1.attrs.length = CTL_PROTO_MAX_ATTRS := by
            rw [hattrs]
            simpa using hw
          obtain ⟨h1, h2, h3⟩ := ih cfm1 hw1 h
          have hfilter : nonsensitiveVisits (v :: rest) =
              v :: nonsensitiveVisits rest := by
            simp [nonsensitiveVisits, hs']
          have hlt : cfm.attrs_len < cfm.attrs.length := by
            rw [hw]
            omega
          have hstep : (cfm1.attrs.take cfm1.attrs_len).map attrEntry =
              (cfm.attrs.take cfm.attrs_len).map attrEntry ++
                [visitEntry v] := by
            rw [hlen1, hattrs, take_succ_set _ _ _ hlt]
            simp [attrEntry, visitEntry, writeBytes]
          refine ⟨?_, h2, ?_⟩
          · rw [h1, hlen1, hfilter]
            simp
            omega
          · rw [h3, hstep, hfilter]
            simp

/-- C3: for every attribute table whose enumeration completes (no
internal-invariant abort), the GetAllAttr response contains no entry
for the sensitive attribute; its entry count equals the number of
non-sensitive attributes the visitor reported; and each included entry
carries that attribute's name, type, length and value bytes
unchanged. -/
theorem get_all_attr_skips_sensitive
    (visits : List Visit) (response r : RespMsg)
    (hw : response.all.attrs.length = CTL_PROTO_MAX_ATTRS)
    (h : process_get_all_attr visits response = some r) :
    r.all.attrs_len = (nonsensitiveVisits visits).length ∧
    (r.all.attrs.take r.all.attrs_len).map attrEntry =
      (nonsensitiveVisits visits).map visitEntry ∧
    ∀ a ∈ r.all.attrs.take r.all.attrs_len, is_sensitive a.name = false := by
  unfold process_get_all_attr at h
  dsimp only at h
  rcases hv : visitAll visits (GetAllAttrCfm.mk 0 response.all.attrs)
    with _ | cfm <;> rw [hv] at h
  · cases h
  · cases h
    obtain ⟨h1, _, h3⟩ :=
      visitAll_spec visits (GetAllAttrCfm.mk 0 response.all.attrs) cfm
        (by simpa using hw) hv
    simp only [List.take_zero, List.map_nil, List.nil_append] at h3
    refine ⟨by simpa using h1, by simpa using h3, ?_⟩
    intro a ha
    have hmem : attrEntry a ∈
        ((cfm.attrs.take cfm.attrs_len).map attrEntry) :=
      List.mem_map_of_mem attrEntry (by simpa using ha)
    rw [h3] at hmem
    obtain ⟨v, hv1, hv2⟩ := List.mem_map.mp hmem
    have hvf := List.mem_filter.mp hv1
    have hname : a.name = v.attr_name := by
      have := congrArg Prod.fst hv2
      simpa [attrEntry, visitEntry] using this.symm
    rw [hname]
    simpa using hvf.2

/-- A concrete three-attribute table: the sensitive key and two plain
attributes. -/
def exampleVisits : List Visit :=
  [ { attr_name := "tls.key", value_type := 3, value := [9] },
    { attr_name := "foo", value_type := 1, value := [1, 2] },
    { attr_name := "bar", value_type := 2, value := [5] } ]

set_option maxRecDepth 8192 in
/-- Witness for `get_all_attr_skips_sensitive`: the concrete table
enumerates to two entries, "foo" and "bar", skipping "tls.key". -/
theorem get_all_attr_skips_sensitive_witness :
    freshResp.all.attrs.length = CTL_PROTO_MAX_ATTRS ∧
    (((process_get_all_attr exampleVisits freshResp).getD
          freshResp).all.attrs_len =
        (nonsensitiveVisits exampleVisits).length ∧
     ((((process_get_all_attr exampleVisits freshResp).getD
            freshResp).all.attrs.take
          ((process_get_all_attr exampleVisits freshResp).getD
            freshResp).all.attrs_len).map attrEntry =
        (nonsensitiveVisits exampleVisits).map visitEntry) ∧
     ∀ a ∈ ((process_get_all_attr exampleVisits freshResp).getD
            freshResp).all.attrs.take
          ((process_get_all_attr exampleVisits freshResp).getD
            freshResp).all.attrs_len,
        is_sensitive a.name = false) :=
  ⟨by decide,
   get_all_attr_skips_sensitive exampleVisits freshResp _ (by decide)
     (by rfl)⟩

/-- C9: destroying a live endpoint closes every client descriptor and
then the listening descriptor, unlinks the bound path exactly when this
instance owns it, frees the endpoint, and restores the caller's ambient
errno across the whole teardown, whatever errno churn the cleanup calls
produce. -/
theorem ctl_destroy_teardown
    (denv : DEnv) (ctl : Ctl) (owner : Bool) (errno : Nat)
    (hcap : ctl.clients.length ≤ MAX_CLIENTS) :
    ctl_destroy denv (some ctl) owner errno =
      { closed := ctl.clients.map Client.fd ++ [ctl.server_fd],
        unlinked := owner, freed := true, errno := errno,
        preRestoreErrno := denv.cleanupErrno } := by
  match hl : ctl.clients with
  | [] =>
      simp [ctl_destroy, hl, destroyRemoveLoop]
  | [a] =>
      simp [ctl_destroy, hl, destroyRemoveLoop, remove_client]
  | [a, b] =>
      simp [ctl_destroy, hl, destroyRemoveLoop, remove_client]
  | a :: b :: c :: rest =>
      rw [hl] at hcap
      simp [MAX_CLIENTS] at hcap

/-- Witness for `ctl_destroy_teardown`: an endpoint with two clients
(descriptors 10 and 11), listener 100, owner destroy with ambient
errno 42 and cleanup churn 77. -/
theorem ctl_destroy_teardown_witness :
    (Ctl.mk 100 "p" [freshClient 10, freshClient 11]
        [(10, 1), (11, 1)]).clients.length ≤ MAX_CLIENTS ∧
    ctl_destroy (DEnv.mk 77)
      (some (Ctl.mk 100 "p" [freshClient 10, freshClient 11]
        [(10, 1), (11, 1)])) true 42 =
      { closed := (Ctl.mk 100 "p" [freshClient 10, freshClient 11]
            [(10, 1), (11, 1)]).clients.map Client.fd ++ [100],
        unlinked := true, freed := true, errno := 42,
        preRestoreErrno := 77 } :=
  ⟨by decide,
   ctl_destroy_teardown (DEnv.mk 77)
     (Ctl.mk 100 "p" [freshClient 10, freshClient 11] [(10, 1), (11, 1)])
     true 42 (by decide)⟩

/-- Helper: taking back the copied prefix returns the source bytes. -/
theorem take_length_append {α : Type} (l₁ l₂ : List α) :
    (l₁ ++ l₂).take l₁.length = l₁ := by
  simp

/-- Helper: a successful non-sensitive lookup turns the response buffer
into a confirm carrying the reported type, length and bytes. -/
theorem process_get_attr_ok
    (get : String → AttrGetResult) (attr_name : String) (response : RespMsg)
    (t : Nat) (bytes : List Nat)
    (hname : is_sensitive attr_name = false)
    (hget : get attr_name = AttrGetResult.ok t bytes) :
    process_get_attr get attr_name response =
      { response with
        type := RespType.get_attr_cfm,
        attr := { name := response.attr.name, value_type := t,
                  value_len := bytes.length,
                  any_value := writeBytes response.attr.any_value bytes } } := by
  unfold process_get_attr
  rw [hget]
  simp [hname]

/-- Helper: a failed non-sensitive lookup turns the response buffer into
a reject carrying the lookup's errno. -/
theorem process_get_attr_err
    (get : String → AttrGetResult) (attr_name : String) (response : RespMsg)
    (e : Nat)
    (hname : is_sensitive attr_name = false)
    (hget : get attr_name = AttrGetResult.err e) :
    process_get_attr get attr_name response =
      { response with type := RespType.get_attr_rej, rej_errno := e } := by
  unfold process_get_attr
  rw [hget]
  simp [hname]

/-- Helper: receiving a full-size GetAttr request marks a response
pending, asks for write interest, and stages `process_get_attr`'s
response. -/
theorem process_client_get_attr
    (env : Env) (client : Client) (attr_name : String)
    (hpend : client.is_response_pending = false)
    (hrecv : env.recv client.fd =
      RecvResult.data CTL_PROTO_MSG_SIZE (ReqMsg.get_attr_req attr_name)) :
    process_client env client =
      some { client := { client with
               is_response_pending := true,
               pending_response :=
                 process_get_attr env.attrGet attr_name
                   client.pending_response },
             removed := false, recvAttempted := true, sent := false,
             regMod := some EPOLLOUT } := by
  unfold process_client
  rw [hpend, hrecv]
  simp [CTL_PROTO_MSG_SIZE]

/-- C6: for a valid non-sensitive attribute name, a GetAttr request
whose lookup succeeds yields a GetAttrConfirm carrying exactly the
type, length and value bytes the attribute table reported, and one
whose lookup fails yields a GetAttrReject carrying the lookup's errno;
in both cases the client is kept connected. -/
theorem get_attr_roundtrip_nonsensitive
    (env : Env) (client : Client) (attr_name : String)
    (hname : is_sensitive attr_name = false)
    (hpend : client.is_response_pending = false)
    (hrecv : env.recv client.fd =
      RecvResult.data CTL_PROTO_MSG_SIZE (ReqMsg.get_attr_req attr_name)) :
    (∀ t bytes, env.attrGet attr_name = AttrGetResult.ok t bytes →
      ∃ r, process_client env client = some r ∧ r.removed = false ∧
        r.client.pending_response.type = RespType.get_attr_cfm ∧
        r.client.pending_response.attr.value_type = t ∧
        r.client.pending_response.attr.value_len = bytes.length ∧
        r.client.pending_response.attr.any_value.take bytes.length = bytes) ∧
    (∀ e, env.attrGet attr_name = AttrGetResult.err e →
      ∃ r, process_client env client = some r ∧ r.removed = false ∧
        r.client.pending_response.type = RespType.get_attr_rej ∧
        r.client.pending_response.rej_errno = e) := by
  constructor
  · intro t bytes hget
    refine ⟨_, process_client_get_attr env client attr_name hpend hrecv, rfl, ?_⟩
    rw [process_get_attr_ok env.attrGet attr_name client.pending_response t bytes
      hname hget]
    exact ⟨rfl, rfl, rfl, take_length_append bytes _⟩
  · intro e hget
    refine ⟨_, process_client_get_attr env client attr_name hpend hrecv, rfl, ?_⟩
    rw [process_get_attr_err env.attrGet attr_name client.pending_response e
      hname hget]
    exact ⟨rfl, rfl⟩

/-- Witness for `get_attr_roundtrip_nonsensitive`: a client awaiting a
request for attribute "foo" with value bytes 1, 2 round-trips them. -/
theorem get_attr_roundtrip_nonsensitive_witness :
    is_sensitive "foo" = false ∧
    (freshClient 10).is_response_pending = false ∧
    (∃ r, process_client
        (Env.mk (fun _ => RecvResult.data CTL_PROTO_MSG_SIZE
                   (ReqMsg.get_attr_req "foo"))
          (fun _ => SendResult.ok)
          (fun _ => AttrGetResult.ok 1 [1, 2]) [] true)
        (freshClient 10) = some r ∧ r.removed = false ∧
      r.client.pending_response.type = RespType.get_attr_cfm ∧
      r.client.pending_response.attr.value_type = 1 ∧
      r.client.pending_response.attr.value_len = ([1, 2] : List Nat).length ∧
      r.client.pending_response.attr.any_value.take
        ([1, 2] : List Nat).length = [1, 2]) :=
  ⟨rfl, rfl,
   (get_attr_roundtrip_nonsensitive
      (Env.mk (fun _ => RecvResult.data CTL_PROTO_MSG_SIZE
                 (ReqMsg.get_attr_req "foo"))
        (fun _ => SendResult.ok)
        (fun _ => AttrGetResult.ok 1 [1, 2]) [] true)
      (freshClient 10) "foo" (by decide) rfl rfl).1 1 [1, 2] rfl⟩

/-- C7: in the AwaitingRequest state the receive step behaves
case-by-case: EAGAIN leaves the client unchanged; a zero-byte read, a
non-EAGAIN error, a read of the wrong byte count, and a full-size read
with an unrecognized tag all remove the client, the last with no
response ever sent. -/
theorem awaiting_request_error_cases
    (env : Env) (client : Client)
    (hpend : client.is_response_pending = false) :
    (env.recv client.fd = RecvResult.fail EAGAIN →
      process_client env client =
        some { client := client, removed := false, recvAttempted := true,
               sent := false, regMod := none }) ∧
    (∀ m, env.recv client.fd = RecvResult.data 0 m →
      process_client env client =
        some { client := client, removed := true, recvAttempted := true,
               sent := false, regMod := none }) ∧
    (∀ e, e ≠ EAGAIN → env.recv client.fd = RecvResult.fail e →
      process_client env client =
        some { client := client, removed := true, recvAttempted := true,
               sent := false, regMod := none }) ∧
    (∀ n m, n ≠ CTL_PROTO_MSG_SIZE → env.recv client.fd = RecvResult.data n m →
      ∃ r, process_client env client = some r ∧ r.removed = true ∧
        r.sent = false) ∧
    (∀ tag, env.recv client.fd =
        RecvResult.data CTL_PROTO_MSG_SIZE (ReqMsg.unknown tag) →
      process_client env client =
        some { client := client, removed := true, recvAttempted := true,
               sent := false, regMod := some EPOLLOUT }) := by
  refine ⟨?_, ?_, ?_, ?_, ?_⟩
  · intro hrecv
    unfold process_client
    rw [hpend, hrecv]
    simp
  · intro m hrecv
    unfold process_client
    rw [hpend, hrecv]
    simp
  · intro e hne hrecv
    unfold process_client
    rw [hpend, hrecv]
    simp [hne]
  · intro n m hn hrecv
    refine ⟨{ client := client, removed := true, recvAttempted := true,
              sent := false, regMod := none }, ?_, rfl, rfl⟩
    unfold process_client
    rw [hpend, hrecv]
    by_cases h0 : n = 0
    · simp [h0]
    · simp [h0, hn]
  · intro tag hrecv
    obtain ⟨fd, pend, resp⟩ := client
    cases hpend
    simp [process_client, hrecv, CTL_PROTO_MSG_SIZE]

/-- Witness for `awaiting_request_error_cases`: a fresh client whose
peer closed the connection (zero-byte read) is removed. -/
theorem awaiting_request_error_cases_witness :
    (freshClient 10).is_response_pending = false ∧
    process_client
        (Env.mk (fun _ => RecvResult.data 0 ReqMsg.get_all_attr_req)
          (fun _ => SendResult.ok) (fun _ => AttrGetResult.err ENOENT) [] true)
        (freshClient 10) =
      some { client := freshClient 10, removed := true, recvAttempted := true,
             sent := false, regMod := none } :=
  ⟨rfl,
   (awaiting_request_error_cases
      (Env.mk (fun _ => RecvResult.data 0 ReqMsg.get_all_attr_req)
        (fun _ => SendResult.ok) (fun _ => AttrGetResult.err ENOENT) [] true)
      (freshClient 10) rfl).2.1 ReqMsg.get_all_attr_req rfl⟩

/-- C8: while a client's response-pending flag is set, no new request
is read from it (its step never attempts a `recv`), and a would-block
on send leaves the client — flag and staged response included —
unchanged for retry. -/
theorem response_pending_no_pipelining
    (env : Env) (client : Client)
    (hpend : client.is_response_pending = true) :
    (∀ r, process_client env client = some r → r.recvAttempted = false) ∧
    (env.send client.fd = SendResult.fail EAGAIN →
      process_client env client =
        some { client := client, removed := false, recvAttempted := false,
               sent := false, regMod := none }) := by
  constructor
  · intro r hr
    unfold process_client at hr
    rw [hpend] at hr
    rcases hs : env.send client.fd with e | _ <;> rw [hs] at hr
    · by_cases he : e = EAGAIN <;> simp [he] at hr <;> simp [← hr]
    · simp at hr
      simp [← hr]
  · intro hsend
    unfold process_client
    rw [hpend, hsend]
    simp

/-- Witness for `response_pending_no_pipelining`: a client with a
pending response whose send would block is left fully unchanged, and
its step reads nothing. -/
theorem response_pending_no_pipelining_witness :
    (Client.mk 10 true freshResp).is_response_pending = true ∧
    process_client
        (Env.mk (fun _ => RecvResult.fail EAGAIN)
          (fun _ => SendResult.fail EAGAIN)
          (fun _ => AttrGetResult.err ENOENT) [] true)
        (Client.mk 10 true freshResp) =
      some { client := Client.mk 10 true freshResp, removed := false,
             recvAttempted := false, sent := false, regMod := none } :=
  ⟨rfl,
   (response_pending_no_pipelining
      (Env.mk (fun _ => RecvResult.fail EAGAIN)
        (fun _ => SendResult.fail EAGAIN)
        (fun _ => AttrGetResult.err ENOENT) [] true)
      (Client.mk 10 true freshResp) rfl).2 rfl⟩

/-- A client whose step under `env` does not ask for removal. -/
def clientKeeps (env : Env) (c : Client) : Prop :=
  ∃ r, process_client env c = some r ∧ r.removed = false

/-- The listening descriptor is registered for read interest. -/
def listenerRegistered (ctl : Ctl) : Prop :=
  (ctl.server_fd, EPOLLIN) ∈ ctl.reg_set

/-- The §3 invariant: the listener is registered for read interest
exactly when the client pool has spare capacity. -/
def ctlInv (ctl : Ctl) : Prop :=
  listenerRegistered ctl ↔ ctl.clients.length < MAX_CLIENTS

/-- Well-formedness: no client shares the listening descriptor. -/
def ctlWf (ctl : Ctl) : Prop :=
  ∀ c ∈ ctl.clients, c.fd ≠ ctl.server_fd

instance (ctl : Ctl) : Decidable (listenerRegistered ctl) :=
  inferInstanceAs (Decidable ((ctl.server_fd, EPOLLIN) ∈ ctl.reg_set))

instance (ctl : Ctl) : Decidable (ctlInv ctl) :=
  inferInstanceAs
    (Decidable (listenerRegistered ctl ↔ ctl.clients.length < MAX_CLIENTS))

instance (ctl : Ctl) : Decidable (ctlWf ctl) :=
  inferInstanceAs (Decidable (∀ c ∈ ctl.clients, c.fd ≠ ctl.server_fd))

/-- Helper: a descriptor's own registrations never survive
`epoll_reg_set_del` on it. -/
theorem not_mem_del (rs : RegSet) (fd ev : Nat) :
    (fd, ev) ∉ epoll_reg_set_del rs fd := by
  simp [epoll_reg_set_del, List.mem_filter]

/-- Helper: deleting one descriptor's registrations leaves another
descriptor's registrations untouched. -/
theorem mem_del_of_ne (rs : RegSet) (fd fd' ev : Nat) (h : fd' ≠ fd) :
    ((fd', ev) ∈ epoll_reg_set_del rs fd) ↔ (fd', ev) ∈ rs := by
  simp [epoll_reg_set_del, List.mem_filter, h]

/-- Helper: re-arming interest on one descriptor leaves another
descriptor's registrations untouched. -/
theorem mem_mod_of_ne (rs : RegSet) (fd fd' ev ev' : Nat) (h : fd' ≠ fd) :
    ((fd', ev') ∈ epoll_reg_set_mod rs fd ev) ↔ (fd', ev') ∈ rs := by
  unfold epoll_reg_set_mod
  constructor
  · intro hm
    obtain ⟨p, hp, hpe⟩ := List.mem_map.mp hm
    by_cases hfd : p.1 = fd
    · rw [if_pos hfd] at hpe
      cases hpe
      exact absurd rfl h
    · rw [if_neg hfd] at hpe
      rwa [hpe] at hp
  · intro hm
    refine List.mem_map.mpr ⟨(fd', ev'), hm, ?_⟩
    rw [if_neg h]

/-- Helper: setting a later slot leaves the dropped tail unchanged. -/
theorem drop_succ_set {α : Type} (l : List α) (i : Nat) (x : α) :
    (l.set i x).drop (i + 1) = l.drop (i + 1) := by
  induction l generalizing i with
  | nil => simp
  | cons a t ih =>
      cases i with
      | zero => simp
      | succ k => simpa using ih k

/-- Helper: `accept_client` records exactly one attempt, tagged with the
pool size at the attempt. -/
theorem accept_client_attempts (env : Env) (st : PState) :
    (accept_client env st).attempts =
      st.attempts ++ [st.ctl.clients.length] := by
  unfold accept_client
  dsimp only
  split
  · split <;> rfl
  · rfl

/-- Helper: `accept_client` never steps a client. -/
theorem accept_client_stepped (env : Env) (st : PState) :
    (accept_client env st).stepped = st.stepped := by
  unfold accept_client
  dsimp only
  split
  · split <;> rfl
  · rfl

/-- Helper: every accept attempt a `ctl_process_go` run records beyond
those already logged is made with spare pool capacity (the caller's
guard). -/
theorem ctl_process_go_attempts_guard (env : Env) :
    ∀ fuel st i st', ctl_process_go env fuel st i = some st' →
      ∀ l ∈ st'.attempts, l ∈ st.attempts ∨ l < MAX_CLIENTS := by
  intro fuel
  induction fuel with
  | zero =>
      intro st i st' h
      simp [ctl_process_go] at h
  | succ fuel ih =>
      intro st i st' h
      rw [ctl_process_go] at h
      split at h
      · dsimp only at h
        split at h
        · exact Option.noConfusion h
        · split at h
          · split at h
            · exact Option.noConfusion h
            · rename_i st3 heq2
              intro l hl
              rcases ih _ _ _ h l hl with hmem | hlt
              · rcases ih _ _ _ heq2 l hmem with hmem2 | hlt2
                · exact Or.inl hmem2
                · exact Or.inr hlt2
              · exact Or.inr hlt
          · exact fun l hl => ih _ _ _ h l hl
      · split at h
        · cases h
          intro l hl
          rw [accept_client_attempts] at hl
          rcases List.mem_append.mp hl with hmem | hone
          · exact Or.inl hmem
          · rename_i hlt
            rw [List.mem_singleton.mp hone]
            exact Or.inr hlt
        · cases h
          exact fun l hl => Or.inl hl

/-- Helper: a scan in which no stepped client asks for removal steps
each client exactly once in pool order, records exactly one guarded
accept attempt when the pool has spare capacity and none otherwise, and
accepts nothing when the pool is full. -/
theorem ctl_process_go_keeps (env : Env) :
    ∀ fuel st i st',
      (∀ c ∈ st.ctl.clients.drop i, clientKeeps env c) →
      ctl_process_go env fuel st i = some st' →
      st'.stepped = st.stepped ++ (st.ctl.clients.drop i).map Client.fd ∧
      st'.attempts = st.attempts ++
        (if st.ctl.clients.length < MAX_CLIENTS
         then [st.ctl.clients.length] else []) ∧
      (¬ st.ctl.clients.length < MAX_CLIENTS →
        st'.accepted = st.accepted) := by
  intro fuel
  induction fuel with
  | zero =>
      intro st i st' hk h
      simp [ctl_process_go] at h
  | succ fuel ih =>
      intro st i st' hk h
      rw [ctl_process_go] at h
      split at h
      · rename_i hi
        dsimp only at h
        have hdropc : st.ctl.clients.drop i =
            st.ctl.clients[i] :: st.ctl.clients.drop (i + 1) :=
          List.drop_eq_getElem_cons hi
        have hgmem : st.ctl.clients[i] ∈ st.ctl.clients.drop i := by
          rw [hdropc]
          exact List.mem_cons_self _ _
        obtain ⟨r, hr, hrem⟩ := hk _ hgmem
        have hget : st.ctl.clients.get ⟨i, hi⟩ = st.ctl.clients[i] := rfl
        rw [hget, hr] at h
        dsimp only at h
        rw [hrem] at h
        simp only [Bool.false_eq_true, if_false] at h
        have hk1 : ∀ c ∈ (st.ctl.clients.set i r.client).drop (i + 1),
            clientKeeps env c := by
          intro c hc
          rw [drop_succ_set] at hc
          apply hk
          rw [hdropc]
          exact List.mem_cons_of_mem _ hc
        obtain ⟨h1, h2, h3⟩ := ih _ (i + 1) st' hk1 h
        refine ⟨?_, ?_, ?_⟩
        · rw [h1]
          dsimp only
          rw [drop_succ_set, hdropc]
          simp only [List.map_cons, List.append_assoc, List.singleton_append]
        · rw [h2]
          dsimp only
          rw [List.length_set]
        · intro hfull
          have := h3 (by simpa using hfull)
          simpa using this
      · rename_i hi
        have hdrop : st.ctl.clients.drop i = [] :=
          List.drop_eq_nil_of_le (Nat.le_of_not_lt hi)
        split at h
        · rename_i hlt
          cases h
          refine ⟨?_, ?_, ?_⟩
          · rw [accept_client_stepped, hdrop]
            simp
          · rw [accept_client_attempts, if_pos hlt]
          · intro hfull
            exact absurd hlt hfull
        · rename_i hlt
          cases h
          refine ⟨?_, ?_, ?_⟩
          · rw [hdrop]
            simp
          · rw [if_neg hlt]
            simp
          · intro _
            rfl

/-- Helper: a guarded accept preserves the listener-registration
invariant: filling the pool deregisters the listener, a non-filling
accept leaves it registered. -/
theorem accept_client_preserves_inv
    (env : Env) (st : PState)
    (hinv : ctlInv st.ctl)
    (hcap : st.ctl.clients.length < MAX_CLIENTS)
    (hfresh : ∀ fd ∈ st.pending, fd ≠ st.ctl.server_fd) :
    ctlInv (accept_client env st).ctl := by
  unfold accept_client
  dsimp only
  split
  · cases hp : st.pending with
    | nil => exact hinv
    | cons fd rest =>
        have hfd : fd ≠ st.ctl.server_fd := by
          apply hfresh
          rw [hp]
          exact List.mem_cons_self _ _
        unfold ctlInv listenerRegistered at hinv ⊢
        dsimp only
        split
        · rename_i hfull
          simp only [List.length_append, List.length_singleton] at hfull ⊢
          constructor
          · intro hmem
            exact absurd hmem (not_mem_del _ _ _)
          · intro hlt
            exact absurd hlt (by omega)
        · rename_i hfull
          simp only [List.length_append, List.length_singleton] at hfull ⊢
          have hmem : (st.ctl.server_fd, EPOLLIN) ∈ st.ctl.reg_set :=
            hinv.mpr hcap
          simp only [MAX_CLIENTS] at hcap hfull ⊢
          constructor
          · intro _
            omega
          · intro _
            exact List.mem_cons_of_mem _ hmem
  · exact hinv

/-- Helper: removing a pool member preserves the listener-registration
invariant: removal from a full pool re-arms the listener, removal from
a non-full pool leaves its registration alone. -/
theorem remove_client_preserves_inv
    (ctl : Ctl) (idx : Nat)
    (hinv : ctlInv ctl) (hwf : ctlWf ctl) (hidx : idx < ctl.clients.length) :
    ctlInv (remove_client ctl idx).1 := by
  unfold remove_client
  dsimp only
  have hmem : ctl.clients.getD idx (freshClient 0) ∈ ctl.clients := by
    rw [List.getD_eq_getElem ctl.clients (freshClient 0) hidx]
    exact List.getElem_mem hidx
  have hne : (ctl.clients.getD idx (freshClient 0)).fd ≠ ctl.server_fd :=
    hwf _ hmem
  unfold ctlInv listenerRegistered at hinv ⊢
  dsimp only
  split
  · rename_i hfull
    constructor
    · intro _
      simp only [List.length_dropLast, List.length_set, hfull, MAX_CLIENTS]
      omega
    · intro _
      exact List.mem_cons_self _ _
  · rename_i hfull
    rw [mem_del_of_ne _ _ _ _ (Ne.symm hne), hinv]
    simp only [List.length_dropLast, List.length_set, MAX_CLIENTS] at hfull ⊢
    omega

/-- C5: the listening descriptor is registered for read interest exactly
when the client pool has spare capacity, in every reachable endpoint
state: the invariant holds at creation, is preserved by a guarded
accept (filling the pool deregisters the listener) and by client
removal (removal from a full pool re-registers it), and a full pool
makes a whole `ctl_process` pass accept no connection as long as no
client disconnects. -/
theorem listener_registration_invariant :
    (∀ sfd p, ctlInv (ctl_create_state sfd p)) ∧
    (∀ env st, ctlInv st.ctl → st.ctl.clients.length < MAX_CLIENTS →
      (∀ fd ∈ st.pending, fd ≠ st.ctl.server_fd) →
      ctlInv (accept_client env st).ctl) ∧
    (∀ ctl idx, ctlInv ctl → ctlWf ctl → idx < ctl.clients.length →
      ctlInv (remove_client ctl idx).1) ∧
    (∀ env fuel st st', st.ctl.clients.length = MAX_CLIENTS →
      (∀ c ∈ st.ctl.clients, clientKeeps env c) →
      ctl_process env fuel st = some st' → st'.accepted = st.accepted) := by
  refine ⟨?_, ?_, ?_, ?_⟩
  · intro sfd p
    unfold ctlInv listenerRegistered ctl_create_state epoll_reg_set_add
    simp [MAX_CLIENTS]
  · exact accept_client_preserves_inv
  · exact remove_client_preserves_inv
  · intro env fuel st st' hfull hk h
    unfold ctl_process at h
    obtain ⟨_, _, h3⟩ :=
      ctl_process_go_keeps env fuel st 0 st' (by simpa using hk) h
    apply h3
    rw [hfull]
    exact lt_irrefl _

/-- Concrete environment for the registration-invariant witness. -/
def envC5 : Env :=
  { recv := fun _ => RecvResult.fail EAGAIN,
    send := fun _ => SendResult.fail EAGAIN,
    attrGet := fun _ => AttrGetResult.err ENOENT,
    visits := [], readable := true }

/-- Concrete one-client state for the registration-invariant witness. -/
def stC5 : PState :=
  { ctl := { server_fd := 100, path := "p", clients := [freshClient 10],
             reg_set := [(100, EPOLLIN), (10, EPOLLIN)] },
    pending := [20], attempts := [], accepted := [], stepped := [] }

/-- Concrete full-pool endpoint for the registration-invariant witness. -/
def ctlC5 : Ctl :=
  { server_fd := 100, path := "p",
    clients := [freshClient 10, freshClient 11],
    reg_set := [(10, EPOLLIN), (11, EPOLLIN)] }

/-- Witness for `listener_registration_invariant`: accepting into a
one-client pool (filling it) and removing a client from a full pool
both preserve the invariant on concrete states. -/
theorem listener_registration_invariant_witness :
    ctlInv stC5.ctl ∧ ctlInv (accept_client envC5 stC5).ctl ∧
    ctlInv ctlC5 ∧ ctlInv (remove_client ctlC5 0).1 :=
  ⟨by decide,
   (listener_registration_invariant).2.1 envC5 stC5 (by decide) (by decide)
     (by decide),
   by decide,
   (listener_registration_invariant).2.2.1 ctlC5 0 (by decide) (by decide)
     (by decide)⟩

/-- Concrete environment whose one client hits a hard receive error. -/
def env4C : Env :=
  { recv := fun _ => RecvResult.fail 5,
    send := fun _ => SendResult.ok,
    attrGet := fun _ => AttrGetResult.err ENOENT,
    visits := [], readable := true }

/-- Concrete state for the multi-accept run: one client, two pending
connections. -/
def st4C : PState :=
  { ctl := { server_fd := 100, path := "p", clients := [freshClient 10],
             reg_set := [(100, EPOLLIN), (10, EPOLLIN)] },
    pending := [20, 21], attempts := [], accepted := [], stepped := [] }

/-- C4 counterexample: one `ctl_process` call on a state with one
failing client and two pending connections attempts two accepts (one
inside the restart recursion, one at the end of the outer pass) and
accepts both pending connections — refuting "at most one accept is
attempted" per call. -/
theorem ctl_process_multi_accept_counterexample :
    (ctl_process env4C 10 st4C).isSome = true ∧
    ((ctl_process env4C 10 st4C).getD st4C).attempts.length = 2 ∧
    ((ctl_process env4C 10 st4C).getD st4C).accepted = [20, 21] ∧
    ¬ ((ctl_process env4C 10 st4C).getD st4C).attempts.length ≤ 1 := by
  decide

/-- C4 (amended): each client is stepped exactly once per completed
scan; a removal restarts the scan from the beginning; and after each
settled scan (the original and each restart) one accept is attempted
when the pool has spare capacity — so one call may attempt several
accepts, but every attempt is made with spare capacity. -/
theorem ctl_process_scan_amended :
    (∀ env fuel st i st', ctl_process_go env fuel st i = some st' →
      ∀ l ∈ st'.attempts, l ∈ st.attempts ∨ l < MAX_CLIENTS) ∧
    (∀ env fuel st st',
      (∀ c ∈ st.ctl.clients, clientKeeps env c) →
      ctl_process env fuel st = some st' →
      st'.stepped = st.stepped ++ st.ctl.clients.map Client.fd ∧
      st'.attempts = st.attempts ++
        (if st.ctl.clients.length < MAX_CLIENTS
         then [st.ctl.clients.length] else [])) := by
  constructor
  · exact fun env fuel st i st' h =>
      ctl_process_go_attempts_guard env fuel st i st' h
  · intro env fuel st st' hk h
    unfold ctl_process at h
    obtain ⟨h1, h2, _⟩ :=
      ctl_process_go_keeps env fuel st 0 st' (by simpa using hk) h
    exact ⟨by simpa using h1, h2⟩

/-- Concrete environment for the amended-scan witness: the sole client
would block. -/
def envK : Env :=
  { recv := fun _ => RecvResult.fail EAGAIN,
    send := fun _ => SendResult.fail EAGAIN,
    attrGet := fun _ => AttrGetResult.err ENOENT,
    visits := [], readable := true }

/-- Concrete one-client state for the amended-scan witness. -/
def stK : PState :=
  { ctl := { server_fd := 100, path := "p", clients := [freshClient 10],
             reg_set := [(100, EPOLLIN), (10, EPOLLIN)] },
    pending := [20], attempts := [], accepted := [], stepped := [] }

/-- Witness for `ctl_process_scan_amended`: on a concrete removal-free
run the sole client is stepped once and exactly one guarded accept
attempt is recorded. -/
theorem ctl_process_scan_amended_witness :
    ((ctl_process envK 5 stK).getD stK).stepped =
        stK.stepped ++ stK.ctl.clients.map Client.fd ∧
    ((ctl_process envK 5 stK).getD stK).attempts =
        stK.attempts ++
          (if stK.ctl.clients.length < MAX_CLIENTS
           then [stK.ctl.clients.length] else []) :=
  (ctl_process_scan_amended).2 envK 5 stK _
    (by
      intro c hc
      simp [stK] at hc
      subst hc
      exact ⟨_, rfl, rfl⟩)
    (by rfl)

/-- C10: destroying an absent endpoint (null handle), with either owner
value, is a no-op: nothing is closed, unlinked or freed, and the
caller's errno is left unchanged. -/
theorem ctl_destroy_null_noop
    (denv : DEnv) (owner : Bool) (errno : Nat) :
    ctl_destroy denv none owner errno =
      { closed := [], unlinked := false, freed := false, errno := errno,
        preRestoreErrno := errno } := rfl

end Xcm
